import Mathlib

/-!
Verification of the OCRtoODT document reassembly core against its
natural-language specification.  The definitions below are a shallow
embedding of the Python sources:

  * ocrtoodt/i4_document_builder/odt_assembler.py  (ODTAssembler.assemble_odt)
  * ocrtoodt/i3_lines_analysis/lines_classifier.py (LineClassifier)
  * ocrtoodt/i0_core/pipeline_orchestrator.py      (file naming and ordering)

Python strings are modelled as Lean String over their character lists
(an ASCII model of the Unicode predicates isalpha, isupper, whitespace);
pixel coordinates are Int; the floating point mean line height and gap
thresholds are modelled exactly as rationals.
-/

/-- Python str.strip(): drop whitespace from both ends. -/
def pyStrip (s : String) : String :=
  String.mk (((s.data.dropWhile Char.isWhitespace).reverse.dropWhile Char.isWhitespace).reverse)

/-- Python str.lstrip(): drop leading whitespace. -/
def pyLstrip (s : String) : String :=
  String.mk (s.data.dropWhile Char.isWhitespace)

/-- Python s.rstrip("-"): drop every trailing dash character. -/
def pyRstripDash (s : String) : String :=
  String.mk ((s.data.reverse.dropWhile (fun c => c == '-')).reverse)

/-- Python s.endswith("-"): the last character is a dash. -/
def endsWithDash (s : String) : Bool :=
  s.data.reverse.head? == some '-'

/-- Python s.endswith("--"): the last two characters are dashes. -/
def endsDoubleDash (s : String) : Bool :=
  s.data.reverse.head? == some '-' && s.data.reverse.tail.head? == some '-'

/-- ends_with_hyphen in assemble_odt: endswith("-") and not endswith("--"). -/
def endsSingleHyphen (s : String) : Bool :=
  endsWithDash s && !endsDoubleDash s

/-- Python s.startswith("*"): the first character is a star. -/
def startsStar (s : String) : Bool :=
  s.data.head? == some '*'

/-- Python str.isupper() on the ASCII fragment: at least one cased
(alphabetic) character and every cased character is uppercase. -/
def pyIsUpper (s : String) : Bool :=
  s.data.any Char.isAlpha && s.data.all (fun c => !c.isAlpha || c.isUpper)

/-- Python str.join(list). -/
def joinSep (sep : String) : List String → String
  | [] => ""
  | [a] => a
  | a :: b :: rest => a ++ sep ++ joinSep sep (b :: rest)

/-- Configuration values read by ODTAssembler.__init__ (defaults from the
source; the gap threshold 1.2 is the rational 12/10). -/
structure Config where
  parIndentMin : Int := 290
  parIndentMax : Int := 335
  parContinueMax : Int := 125
  parIndentSpaces : Nat := 4
  defLeftMin : Int := 500
  defLeftMax : Int := 600
  defRightMin : Int := 3900
  defRightMax : Int := 3960
  defGapThreshold : ℚ := 12 / 10
  defGapMin : Int := 40
deriving Repr, DecidableEq

def defaultConfig : Config := {}

/-- One parsed TSV record as assemble_odt uses it: the text field and the
four bbox coordinates obtained from the bbox column. -/
structure Line where
  text : String
  x1 : Int
  y1 : Int
  x2 : Int
  y2 : Int
deriving Repr, DecidableEq

/-- One output element added to the document body: a styled paragraph, the
empty spacer paragraph, the divider paragraph (65 underscores), or the page
break paragraph. -/
inductive Blk where
  | para (style : String) (text : String)
  | spacer
  | divider
  | pageBreak
deriving Repr, DecidableEq

/-- The loop state of assemble_odt while walking one page. -/
structure PState where
  prevHyphen : Bool
  currentText : List String
  currentStyle : String
  inDef : Bool
  defText : List String
deriving Repr, DecidableEq

/-- State at the start of each TSV file in assemble_odt. -/
def initState : PState :=
  { prevHyphen := false, currentText := [], currentStyle := "Paragraph",
    inDef := false, defText := [] }

/-- np.mean of the bbox heights of every parsed record, 1.0 for no records. -/
def avgLineHeight (lines : List Line) : ℚ :=
  if lines.isEmpty then 1
  else (lines.map (fun l => ((l.y2 - l.y1 : Int) : ℚ))).sum / lines.length

/-- The definition column window test (is_def_line). -/
def isDefLineB (cfg : Config) (l : Line) : Bool :=
  decide (cfg.defLeftMin ≤ l.x1) && decide (l.x1 ≤ cfg.defLeftMax) &&
  decide (cfg.defRightMin ≤ l.x2) && decide (l.x2 ≤ cfg.defRightMax)

/-- The one-line lookahead test (next_is_def): the window widened by 50px. -/
def nextDefB (cfg : Config) (l : Line) : Bool :=
  decide (cfg.defLeftMin - 50 ≤ l.x1) && decide (l.x1 ≤ cfg.defLeftMax + 50) &&
  decide (cfg.defRightMin - 50 ≤ l.x2) && decide (l.x2 ≤ cfg.defRightMax + 50)

/-- Gap test used on both sides of a definition block:
gap is greater than max(def_gap_min, def_gap_threshold * avg_line_height). -/
def bigGap (cfg : Config) (avg : ℚ) (gap : Int) : Bool :=
  decide ((gap : ℚ) > max (cfg.defGapMin : ℚ) (cfg.defGapThreshold * avg))

/-- Python buf[-1] = f(buf[-1]) on a nonempty list. -/
def modLast (f : String → String) : List String → List String
  | [] => []
  | [a] => [f a]
  | a :: b :: rest => a :: modLast f (b :: rest)

/-- Flushing the open paragraph buffer: the current text joined by the empty
string under the current style, nothing when the buffer is empty. -/
def flushPar (st : PState) : List Blk :=
  if st.currentText.isEmpty then []
  else [Blk.para st.currentStyle (joinSep "" st.currentText)]

/-- Flushing a definition buffer: the fragments joined by single spaces. -/
def flushDef (ds : List String) : List Blk :=
  if ds.isEmpty then [] else [Blk.para "Definition" (joinSep " " ds)]

/-- The style assigned to a fresh block: Footnote for a star line, Heading
for an all uppercase text longer than ten characters, else Paragraph. -/
def styleOf (tv : String) : String :=
  if startsStar tv then "Footnote"
  else if pyIsUpper tv && decide (tv.length > 10) then "Heading"
  else "Paragraph"

/-- One iteration of the per-line loop of assemble_odt.  prev is the raw
previous record (index i-1 in the source, whether or not its text was
empty); rest holds the raw records after the current one, so the one-line
lookahead reads its head.  Returns the elements added to the document and
the new loop state. -/
def step (cfg : Config) (avg : ℚ) (prev : Option Line) (l : Line) (rest : List Line)
    (st : PState) : List Blk × PState :=
  let tv := pyStrip l.text
  if tv = "" then ([], st)
  else
    let isFoot := startsStar tv
    let endsHyph := endsSingleHyphen tv
    let style := styleOf tv
    if isDefLineB cfg l || st.inDef then
      let opening := isDefLineB cfg l && !st.inDef
      let outFlush := if opening then flushPar st else []
      let outGap :=
        if opening then
          match prev with
          | some pl => if bigGap cfg avg (max 0 (l.y1 - pl.y2)) then [Blk.spacer] else []
          | none => []
        else []
      let st1 : PState :=
        if opening then { st with currentText := [], inDef := true, defText := [] } else st
      let defText2 :=
        if !st1.defText.isEmpty && st1.prevHyphen then
          modLast (fun last => pyRstripDash last ++ pyLstrip tv) st1.defText
        else st1.defText ++ [tv]
      let nextIsDef :=
        match rest with
        | nl :: _ => nextDefB cfg nl
        | [] => false
      if nextIsDef then
        (outFlush ++ outGap, { st1 with defText := defText2, prevHyphen := endsHyph })
      else
        let outAfter :=
          match rest with
          | nl :: _ =>
            if bigGap cfg avg (max 0 (nl.y1 - l.y2)) ||
               (decide (cfg.parIndentMin ≤ nl.x1) && decide (nl.x1 ≤ cfg.parIndentMax)) then
              [Blk.spacer]
            else []
          | [] => []
        (outFlush ++ outGap ++ flushDef defText2 ++ outAfter,
         { st1 with defText := [], inDef := false, prevHyphen := false })
    else if decide (l.x1 < cfg.parContinueMax) && !st.currentText.isEmpty then
      let ct2 :=
        if st.prevHyphen then
          modLast (fun last => pyRstripDash last ++ pyLstrip tv) st.currentText
        else modLast (fun last => last ++ " " ++ tv) st.currentText
      ([], { st with currentText := ct2, prevHyphen := endsHyph })
    else if decide (cfg.parIndentMin ≤ l.x1) && decide (l.x1 ≤ cfg.parIndentMax) then
      let indent := String.mk (List.replicate cfg.parIndentSpaces ' ')
      (flushPar st,
       { st with currentText := [indent ++ tv], currentStyle := style, prevHyphen := endsHyph })
    else
      let joined := st.prevHyphen && !st.currentText.isEmpty
      let outFlush := if joined then [] else flushPar st
      let ct1 :=
        if joined then modLast (fun last => pyRstripDash last ++ pyLstrip tv) st.currentText
        else [tv]
      let style1 := if joined then st.currentStyle else style
      if isFoot then
        (outFlush ++ [Blk.divider, Blk.para "Footnote" tv],
         { st with currentText := [], currentStyle := "Paragraph", prevHyphen := false })
      else
        (outFlush, { st with currentText := ct1, currentStyle := style1, prevHyphen := endsHyph })

/-- The whole per-line loop, threading the raw previous record. -/
def procLines (cfg : Config) (avg : ℚ) : Option Line → List Line → PState → List Blk × PState
  | _, [], st => ([], st)
  | prev, l :: rest, st =>
    let r1 := step cfg avg prev l rest st
    let r2 := procLines cfg avg (some l) rest r1.2
    (r1.1 ++ r2.1, r2.2)

/-- The loop states entered at each record (and the final state). -/
def procStates (cfg : Config) (avg : ℚ) : Option Line → List Line → PState → List PState
  | _, [], st => [st]
  | prev, l :: rest, st =>
    st :: procStates cfg avg (some l) rest (step cfg avg prev l rest st).2

/-- Processing of one TSV file of assemble_odt: run the loop from the fresh
state, then flush an open definition and an open paragraph. -/
def procPage (cfg : Config) (lines : List Line) : List Blk :=
  let avg := avgLineHeight lines
  let r := procLines cfg avg none lines initState
  r.1 ++ (if r.2.inDef then flushDef r.2.defText else []) ++ flushPar r.2

/-- The document body assembled from pages already in processing order:
a page break paragraph before every page except the first. -/
def assembleDoc (cfg : Config) : List (List Line) → List Blk
  | [] => []
  | p :: rest => procPage cfg p ++ rest.foldr (fun q acc => Blk.pageBreak :: (procPage cfg q ++ acc)) []

/-- One raw TSV row as assemble_odt reads it: the text column and the bbox
column still serialized as text. -/
structure Row where
  text : String
  bbox : String
deriving Repr, DecidableEq

/-- Splitting a character list at commas, like str.split(","). -/
def splitComma : List Char → List (List Char)
  | [] => [[]]
  | c :: rest =>
    if c = ',' then [] :: splitComma rest
    else
      match splitComma rest with
      | g :: gs => (c :: g) :: gs
      | [] => [[c]]

/-- Accumulating decimal digit parser; none when no digit was read or a non
digit character appears. -/
def parseNatAux (acc : Option Nat) : List Char → Option Nat
  | [] => acc
  | c :: rest =>
    if c.isDigit then parseNatAux (some ((acc.getD 0) * 10 + (c.toNat - 48))) rest
    else none

/-- A decimal integer literal with an optional leading minus sign. -/
def parseIntChars : List Char → Option Int
  | '-' :: rest => (parseNatAux none rest).map (fun n => -(n : Int))
  | cs => (parseNatAux none cs).map (fun n => (n : Int))

/-- str.strip() on a raw character list. -/
def stripChars (cs : List Char) : List Char :=
  ((cs.dropWhile Char.isWhitespace).reverse.dropWhile Char.isWhitespace).reverse

/-- Parsing the bbox column: a bracketed, comma separated list of four
integers; anything else fails (eval raising in the source). -/
def parseBBox (s : String) : Option (Int × Int × Int × Int) :=
  let t := pyStrip s
  match t.data with
  | '[' :: rest =>
    match rest.reverse with
    | ']' :: mid =>
      match (splitComma mid.reverse).map (fun p => parseIntChars (stripChars p)) with
      | [some a, some b, some c, some d] => some (a, b, c, d)
      | _ => none
    | _ => none
  | _ => none

def rowToLine (r : Row) : Option Line :=
  (parseBBox r.bbox).map (fun bb => ⟨r.text, bb.1, bb.2.1, bb.2.2.1, bb.2.2.2⟩)

/-- Parsing every row of one TSV file; the first unparseable bbox aborts
(assemble_odt has no handler around eval). -/
def parsePage : List Row → Option (List Line)
  | [] => some []
  | r :: rest =>
    match rowToLine r, parsePage rest with
    | some l, some ls => some (l :: ls)
    | _, _ => none

/-- Python string comparison: lexicographic by code point. -/
def lexLt : List Char → List Char → Bool
  | [], [] => false
  | [], _ :: _ => true
  | _ :: _, [] => false
  | a :: as, b :: bs => if a < b then true else if b < a then false else lexLt as bs

def strLtB (a b : String) : Bool := lexLt a.data b.data

/-- Stable insertion keeping ascending name order (Python sorted). -/
def insertSorted (a : String × List Row) :
    List (String × List Row) → List (String × List Row)
  | [] => [a]
  | b :: rest => if strLtB a.1 b.1 then a :: b :: rest else b :: insertSorted a rest

/-- Python sorted(tsv_files): ascending lexicographic order of the paths. -/
def sortByName (files : List (String × List Row)) : List (String × List Row) :=
  files.foldl (fun acc f => insertSorted f acc) []

/-- The page loop of assemble_odt over the sorted file list: a parse failure
anywhere aborts the run (the document is never saved); otherwise the pages
are emitted in order with a page break before each page except the first. -/
def assembleSorted (cfg : Config) : List (String × List Row) → Bool → Except String (List Blk)
  | [], _ => .ok []
  | (name, rows) :: rest, first =>
    match parsePage rows with
    | none => .error ("malformed bbox in " ++ name)
    | some lines =>
      match assembleSorted cfg rest false with
      | .error e => .error e
      | .ok blks =>
        .ok ((if first then [] else [Blk.pageBreak]) ++ procPage cfg lines ++ blks)

/-- assemble_odt: every input file must exist (the first missing one raises
FileNotFoundError before any page is processed); then the files are sorted
lexicographically and processed in that order. -/
def assembleODT (cfg : Config) (files : List (String × Option (List Row))) :
    Except String (List Blk) :=
  match files.find? (fun f => f.2.isNone) with
  | some f => .error ("TSV file " ++ f.1 ++ " not found")
  | none => assembleSorted cfg (sortByName (files.map (fun f => (f.1, f.2.getD [])))) true

/-- The TSV file path the orchestrator produces for a page number:
os.path.join(ocr_dir, page_ plus the number zero padded to width four). -/
def pad4 (n : Nat) : String :=
  if n < 10000 then
    String.mk [Nat.digitChar (n / 1000 % 10), Nat.digitChar (n / 100 % 10),
               Nat.digitChar (n / 10 % 10), Nat.digitChar (n % 10)]
  else Nat.repr n

def pageFileName (n : Nat) : String := "cache/ocr/page_" ++ pad4 n ++ ".tsv"

/-- One raw row as classify_lines reads it (centered and ends_with_hyphen
already boolean columns of the TSV). -/
structure CRow where
  page : Int
  lineNo : Int
  text : String
  bboxStr : String
  centered : Bool
  endsHyphenF : Bool
deriving Repr, DecidableEq

/-- The record classify_lines emits per surviving row. -/
structure LineAnnot where
  page : Int
  lineNo : Int
  text : String
  cls : String
  bbox : Int × Int × Int × Int
  centered : Bool
  endsHyphenF : Bool
deriving Repr, DecidableEq

/-- LineClassifier._classify_line with a boolean centered flag: PARAGRAPH for
blank text or no alphabetic character, else TITLE when the uppercase ratio
reaches the threshold (inclusive) or the line is centered. -/
def classifyLine (capsRatio : ℚ) (text : String) (centered : Bool) : String :=
  if pyStrip text = "" then "PARAGRAPH"
  else
    let letters := text.data.filter Char.isAlpha
    if letters.isEmpty then "PARAGRAPH"
    else
      if decide (capsRatio ≤ ((letters.filter Char.isUpper).length : ℚ) / (letters.length : ℚ))
         || centered then "TITLE"
      else "PARAGRAPH"

/-- LineClassifier.classify_lines: each row is processed under a handler; a
row whose bbox does not parse is dropped and processing continues. -/
def classifyLines (capsRatio : ℚ) (rows : List CRow) : List LineAnnot :=
  rows.filterMap (fun r =>
    (parseBBox r.bboxStr).map (fun bb =>
      ⟨r.page, r.lineNo, r.text, classifyLine capsRatio r.text r.centered,
       bb, r.centered, r.endsHyphenF⟩))

/-- The kind of an output element: the style name of a styled paragraph. -/
def blkKind : Blk → String
  | .para s _ => s
  | .spacer => "Spacer"
  | .divider => "Divider"
  | .pageBreak => "PageBreak"

/-- Mutual exclusion of the open-definition and open-paragraph states. -/
def invB (st : PState) : Bool := !st.inDef || st.currentText.isEmpty

theorem startsStar_ne_empty {s : String} (h : startsStar s = true) : s ≠ "" :=
  fun he => by rw [he] at h; exact absurd h (by decide)

theorem step_fallback_foot (cfg : Config) (avg : ℚ) (prev : Option Line) (l : Line)
    (rest : List Line) (st : PState)
    (hdef : isDefLineB cfg l = false) (hid : st.inDef = false)
    (hcont : (decide (l.x1 < cfg.parContinueMax) && !st.currentText.isEmpty) = false)
    (hind : (decide (cfg.parIndentMin ≤ l.x1) && decide (l.x1 ≤ cfg.parIndentMax)) = false)
    (hfoot : startsStar (pyStrip l.text) = true) :
    step cfg avg prev l rest st =
      ((if st.prevHyphen && !st.currentText.isEmpty then [] else flushPar st)
        ++ [Blk.divider, Blk.para "Footnote" (pyStrip l.text)],
       { st with currentText := [], currentStyle := "Paragraph", prevHyphen := false }) := by
  have hne : pyStrip l.text ≠ "" := startsStar_ne_empty hfoot
  simp [step, hne, hdef, hid, hcont, hind, hfoot]

theorem rstrip_single {f : String} (h : endsSingleHyphen f = true) :
    pyRstripDash f = String.mk f.data.dropLast := by
  unfold endsSingleHyphen endsWithDash endsDoubleDash at h
  rcases hr : f.data.reverse with _ | ⟨c, r⟩
  · rw [hr] at h; simp at h
  · rw [hr] at h
    simp only [Bool.and_eq_true, Bool.not_eq_true', Bool.and_eq_false_iff, beq_iff_eq,
      List.head?_cons, Option.some.injEq, beq_eq_false_iff_ne, ne_eq, List.tail_cons] at h
    obtain ⟨hc, h2⟩ := h
    subst hc
    have hrhead : r.head? ≠ some '-' := by
      rcases h2 with h2 | h2
      · exact absurd rfl h2
      · intro hx
        rcases r with _ | ⟨d, r2⟩
        · simp at hx
        · simp at hx
          subst hx
          simp at h2
    have hdrop : r.dropWhile (fun c => c == '-') = r := by
      rcases r with _ | ⟨d, r2⟩
      · rfl
      · have hd : d ≠ '-' := by
          intro hd; exact hrhead (by simp [hd])
        rw [List.dropWhile_cons, if_neg (by simp [hd])]
    have hf : f.data = r.reverse ++ ['-'] := by
      have := congrArg List.reverse hr
      simpa using this
    unfold pyRstripDash
    rw [hr]
    simp only [List.dropWhile, beq_self_eq_true, hdrop, hf, List.dropLast_concat]

theorem endsDoubleDash_not_single {s : String} (h : endsDoubleDash s = true) :
    endsSingleHyphen s = false := by
  simp [endsSingleHyphen, h]

theorem step_cont (cfg : Config) (avg : ℚ) (prev : Option Line) (l : Line)
    (rest : List Line) (st : PState)
    (hdef : isDefLineB cfg l = false) (hid : st.inDef = false)
    (hx : decide (l.x1 < cfg.parContinueMax) = true)
    (hbuf : st.currentText.isEmpty = false)
    (hne : pyStrip l.text ≠ "") :
    step cfg avg prev l rest st =
      ([], { st with
             currentText :=
               if st.prevHyphen then
                 modLast (fun last => pyRstripDash last ++ pyLstrip (pyStrip l.text)) st.currentText
               else modLast (fun last => last ++ " " ++ pyStrip l.text) st.currentText,
             prevHyphen := endsSingleHyphen (pyStrip l.text) }) := by
  simp [step, hne, hdef, hid, hx, hbuf]

theorem step_indent (cfg : Config) (avg : ℚ) (prev : Option Line) (l : Line)
    (rest : List Line) (st : PState)
    (hdef : isDefLineB cfg l = false) (hid : st.inDef = false)
    (hcont : (decide (l.x1 < cfg.parContinueMax) && !st.currentText.isEmpty) = false)
    (hind : (decide (cfg.parIndentMin ≤ l.x1) && decide (l.x1 ≤ cfg.parIndentMax)) = true)
    (hne : pyStrip l.text ≠ "") :
    step cfg avg prev l rest st =
      (flushPar st,
       { st with
         currentText := [String.mk (List.replicate cfg.parIndentSpaces ' ') ++ pyStrip l.text],
         currentStyle := styleOf (pyStrip l.text),
         prevHyphen := endsSingleHyphen (pyStrip l.text) }) := by
  simp [step, hne, hdef, hid, hcont, hind]

theorem step_fallback_nofoot (cfg : Config) (avg : ℚ) (prev : Option Line) (l : Line)
    (rest : List Line) (st : PState)
    (hdef : isDefLineB cfg l = false) (hid : st.inDef = false)
    (hcont : (decide (l.x1 < cfg.parContinueMax) && !st.currentText.isEmpty) = false)
    (hind : (decide (cfg.parIndentMin ≤ l.x1) && decide (l.x1 ≤ cfg.parIndentMax)) = false)
    (hfoot : startsStar (pyStrip l.text) = false)
    (hne : pyStrip l.text ≠ "") :
    step cfg avg prev l rest st =
      ((if st.prevHyphen && !st.currentText.isEmpty then [] else flushPar st),
       { st with
         currentText :=
           if st.prevHyphen && !st.currentText.isEmpty then
             modLast (fun last => pyRstripDash last ++ pyLstrip (pyStrip l.text)) st.currentText
           else [pyStrip l.text],
         currentStyle :=
           if st.prevHyphen && !st.currentText.isEmpty then st.currentStyle
           else styleOf (pyStrip l.text),
         prevHyphen := endsSingleHyphen (pyStrip l.text) }) := by
  simp [step, hne, hdef, hid, hcont, hind, hfoot]

theorem step_def_cont (cfg : Config) (avg : ℚ) (prev : Option Line) (l : Line)
    (nl : Line) (t : List Line) (st : PState)
    (hid : st.inDef = true) (hnext : nextDefB cfg nl = true)
    (hne : pyStrip l.text ≠ "") :
    step cfg avg prev l (nl :: t) st =
      ([], { st with
             defText :=
               if !st.defText.isEmpty && st.prevHyphen then
                 modLast (fun last => pyRstripDash last ++ pyLstrip (pyStrip l.text)) st.defText
               else st.defText ++ [pyStrip l.text],
             prevHyphen := endsSingleHyphen (pyStrip l.text) }) := by
  simp [step, hne, hid, hnext]

theorem step_inDef_next (cfg : Config) (avg : ℚ) (prev : Option Line) (l : Line)
    (rest : List Line) (st : PState) (hne : pyStrip l.text ≠ "")
    (h : (step cfg avg prev l rest st).2.inDef = true) :
    ∃ nl t, rest = nl :: t ∧ nextDefB cfg nl = true := by
  by_cases hd : (isDefLineB cfg l || st.inDef) = true
  · rcases rest with _ | ⟨nl, t⟩
    · simp [step, hne, hd] at h
    · by_cases hn : nextDefB cfg nl = true
      · exact ⟨nl, t, rfl, hn⟩
      · simp [step, hne, hd, hn] at h
  · have hsd : st.inDef = false := by revert hd; cases st.inDef <;> simp
    rw [Bool.or_eq_true] at hd
    push_neg at hd
    have hdl : isDefLineB cfg l = false := by
      revert hd; cases isDefLineB cfg l <;> simp
    simp [step, hne, hdl, hsd, apply_ite (f := fun p : List Blk × PState => p.2),
      apply_ite (f := PState.inDef)] at h

theorem step_invB (cfg : Config) (avg : ℚ) (prev : Option Line) (l : Line)
    (rest : List Line) (st : PState) (h : invB st = true) :
    invB (step cfg avg prev l rest st).2 = true := by
  by_cases hne : pyStrip l.text = ""
  · simpa [step, hne] using h
  · by_cases hd : (isDefLineB cfg l || st.inDef) = true
    · by_cases ho : (isDefLineB cfg l && !st.inDef) = true
      · rcases rest with _ | ⟨nl, t⟩
        · simp [step, hne, hd, ho, invB]
        · by_cases hn : nextDefB cfg nl = true <;> simp [step, hne, hd, ho, hn, invB]
      · rcases rest with _ | ⟨nl, t⟩
        · simp [step, hne, hd, ho, invB]
        · by_cases hn : nextDefB cfg nl = true
          · simpa [step, hne, hd, ho, hn, invB] using h
          · simp [step, hne, hd, ho, hn, invB]
    · have hsd : st.inDef = false := by revert hd; cases st.inDef <;> simp
      rw [Bool.or_eq_true] at hd
      push_neg at hd
      have hdl : isDefLineB cfg l = false := by
        revert hd; cases isDefLineB cfg l <;> simp
      simp [step, hne, hdl, hsd, invB, apply_ite (f := fun p : List Blk × PState => p.2),
        apply_ite (f := PState.inDef), apply_ite (f := PState.currentText)]

theorem procStates_invB (cfg : Config) (avg : ℚ) :
    ∀ (lines : List Line) (prev : Option Line) (st : PState), invB st = true →
      ∀ stj ∈ procStates cfg avg prev lines st, invB stj = true := by
  intro lines
  induction lines with
  | nil =>
    intro prev st h stj hm
    simp [procStates] at hm
    subst hm; exact h
  | cons l rest ih =>
    intro prev st h stj hm
    simp only [procStates, List.mem_cons] at hm
    rcases hm with hm | hm
    · subst hm; exact h
    · exact ih (some l) _ (step_invB cfg avg prev l rest st h) stj hm

theorem procStates_notWidened (cfg : Config) (avg : ℚ) :
    ∀ (lines : List Line) (prev : Option Line) (st : PState),
      (∀ l ∈ lines, pyStrip l.text ≠ "") →
      (st.inDef = true → ∃ nl t, lines = nl :: t ∧ nextDefB cfg nl = true) →
      ∀ (j : Nat) (l : Line) (stj : PState), lines[j]? = some l → nextDefB cfg l = false →
        (procStates cfg avg prev lines st)[j]? = some stj → stj.inDef = false := by
  intro lines
  induction lines with
  | nil => intro prev st hne hpre j l stj hl hw hst; simp at hl
  | cons a rest ih =>
    intro prev st hne hpre j l stj hl hwide hst
    cases j with
    | zero =>
      simp only [List.getElem?_cons_zero, Option.some.injEq] at hl
      simp only [procStates, List.getElem?_cons_zero, Option.some.injEq] at hst
      subst hl; subst hst
      by_contra hcontra
      have hid : st.inDef = true := by revert hcontra; cases st.inDef <;> simp
      obtain ⟨nl, t, heq, hn⟩ := hpre hid
      injection heq with h1 h2
      subst h1
      rw [hn] at hwide
      exact absurd hwide (by simp)
    | succ j =>
      simp only [List.getElem?_cons_succ] at hl
      simp only [procStates, List.getElem?_cons_succ] at hst
      exact ih (some a) ((step cfg avg prev a rest st).2)
        (fun x hx => hne x (List.mem_cons_of_mem a hx))
        (step_inDef_next cfg avg prev a rest st (hne a (List.mem_cons_self a rest)))
        j l stj hl hwide hst

/-- C9: at every point while processing the line sequence of one page, the open
Definition state and a nonempty Paragraph buffer are mutually exclusive:
every loop state entered from a state satisfying the exclusion invariant
(in particular from the initial state of a page) again satisfies it, so at
most one Paragraph buffer and at most one Definition buffer are ever open,
and never both at the same time. -/
theorem c9_mutual_exclusion (cfg : Config) (avg : ℚ) (prev : Option Line)
    (lines : List Line) (st : PState) (h : invB st = true) :
    ∀ stj ∈ procStates cfg avg prev lines st, invB stj = true :=
  procStates_invB cfg avg lines prev st h

theorem c9_witness :
    invB { prevHyphen := false, currentText := ["xyz"], currentStyle := "Paragraph",
           inDef := false, defText := [] } = true :=
  c9_mutual_exclusion defaultConfig 50 none
    [⟨"abc", 550, 0, 3930, 50⟩, ⟨"xyz", 700, 60, 1500, 110⟩] initState (by decide)
    { prevHyphen := false, currentText := ["xyz"], currentStyle := "Paragraph",
      inDef := false, defText := [] } (by decide)

/-- C10: when a line starting with a star reaches the fallback branch while
the previous line ended with a single hyphen and a Paragraph buffer is open,
the buffer (after absorbing the footnote text by hyphen join) is discarded
without being emitted: the step emits only the Divider and the standalone
Footnote block, and the paragraph buffer is cleared. -/
theorem c10_footnote_discards_buffer (cfg : Config) (avg : ℚ) (prev : Option Line)
    (l : Line) (rest : List Line) (st : PState) (f : String)
    (hid : st.inDef = false) (hdef : isDefLineB cfg l = false)
    (hph : st.prevHyphen = true) (hbuf : st.currentText = [f])
    (hx : ¬ l.x1 < cfg.parContinueMax)
    (hind : ¬ (cfg.parIndentMin ≤ l.x1 ∧ l.x1 ≤ cfg.parIndentMax))
    (hfoot : startsStar (pyStrip l.text) = true) :
    step cfg avg prev l rest st =
      ([Blk.divider, Blk.para "Footnote" (pyStrip l.text)],
       { st with currentText := [], currentStyle := "Paragraph", prevHyphen := false }) := by
  have hcont : (decide (l.x1 < cfg.parContinueMax) && !st.currentText.isEmpty) = false := by
    simp [hx]
  have hindB : (decide (cfg.parIndentMin ≤ l.x1) && decide (l.x1 ≤ cfg.parIndentMax)) = false := by
    rcases Decidable.em (cfg.parIndentMin ≤ l.x1) with h1 | h1
    · have h2 : ¬ l.x1 ≤ cfg.parIndentMax := fun h2 => hind ⟨h1, h2⟩
      simp [h2]
    · simp [h1]
  rw [step_fallback_foot cfg avg prev l rest st hdef hid hcont hindB hfoot]
  simp [hph, hbuf]

theorem c10_witness :
    step defaultConfig 1 none ⟨"*note", 400, 0, 1000, 50⟩ []
      { prevHyphen := true, currentText := ["    some paragra-"], currentStyle := "Paragraph",
        inDef := false, defText := [] } =
      ([Blk.divider, Blk.para "Footnote" "*note"],
       { prevHyphen := false, currentText := [], currentStyle := "Paragraph",
         inDef := false, defText := [] }) :=
  c10_footnote_discards_buffer defaultConfig 1 none ⟨"*note", 400, 0, 1000, 50⟩ []
    { prevHyphen := true, currentText := ["    some paragra-"], currentStyle := "Paragraph",
      inDef := false, defText := [] } "    some paragra-"
    (by decide) (by decide) (by decide) (by decide) (by decide) (by decide) (by decide)

/-- C1 (amended): a line whose stripped text starts with a star is emitted
as a Divider followed by a standalone Footnote block, with the paragraph
state reset, exactly when it reaches the fallback branch: it is not a
definition line, no Definition is open, it is not a paragraph continuation
(left edge under the continuation bound with an open buffer), and its left
edge is outside the indentation window.  Buffered Paragraph text is flushed
first unless the previous line ended with a single hyphen, in which case
the buffer is discarded unemitted. -/
theorem c1_footnote_fallback_only (cfg : Config) (avg : ℚ) (prev : Option Line)
    (l : Line) (rest : List Line) (st : PState)
    (hdef : isDefLineB cfg l = false) (hid : st.inDef = false)
    (hcont : ¬ (l.x1 < cfg.parContinueMax ∧ st.currentText ≠ []))
    (hind : ¬ (cfg.parIndentMin ≤ l.x1 ∧ l.x1 ≤ cfg.parIndentMax))
    (hfoot : startsStar (pyStrip l.text) = true) :
    step cfg avg prev l rest st =
      ((if st.prevHyphen && !st.currentText.isEmpty then [] else flushPar st)
        ++ [Blk.divider, Blk.para "Footnote" (pyStrip l.text)],
       { st with currentText := [], currentStyle := "Paragraph", prevHyphen := false }) := by
  have hcontB : (decide (l.x1 < cfg.parContinueMax) && !st.currentText.isEmpty) = false := by
    rcases Decidable.em (l.x1 < cfg.parContinueMax) with h1 | h1
    · have h2 : st.currentText = [] := by
        by_contra h2; exact hcont ⟨h1, h2⟩
      simp [h2]
    · simp [h1]
  have hindB : (decide (cfg.parIndentMin ≤ l.x1) && decide (l.x1 ≤ cfg.parIndentMax)) = false := by
    rcases Decidable.em (cfg.parIndentMin ≤ l.x1) with h1 | h1
    · have h2 : ¬ l.x1 ≤ cfg.parIndentMax := fun h2 => hind ⟨h1, h2⟩
      simp [h2]
    · simp [h1]
  exact step_fallback_foot cfg avg prev l rest st hdef hid hcontB hindB hfoot

theorem c1_witness :
    step defaultConfig 1 none ⟨"*fn", 400, 0, 900, 40⟩ []
      { prevHyphen := false, currentText := ["hello"], currentStyle := "Paragraph",
        inDef := false, defText := [] } =
      ([Blk.para "Paragraph" "hello", Blk.divider, Blk.para "Footnote" "*fn"],
       { prevHyphen := false, currentText := [], currentStyle := "Paragraph",
         inDef := false, defText := [] }) :=
  c1_footnote_fallback_only defaultConfig 1 none ⟨"*fn", 400, 0, 900, 40⟩ []
    { prevHyphen := false, currentText := ["hello"], currentStyle := "Paragraph",
      inDef := false, defText := [] }
    (by decide) (by decide) (by decide) (by decide) (by decide)

theorem c1_counterexample :
    procPage defaultConfig [⟨"*note", 300, 0, 1000, 50⟩] = [Blk.para "Footnote" "    *note"] ∧
    Blk.divider ∉ procPage defaultConfig [⟨"*note", 300, 0, 1000, 50⟩] := by
  constructor
  · rfl
  · decide

/-- C5 (amended): under the default configuration a nonempty line with
x1 = 550 and x2 = 3930 opens a Definition that is emitted as a Definition
block; a line with x1 = 700 never satisfies the definition window nor the
50px widened lookahead window; on a page with no whitespace-only lines the
loop state entering any line with x1 = 700 has no Definition open (the
lookahead closed it beforehand); and a non definition line processed with
no Definition open leaves the definition buffer untouched and opens
nothing.  (With a whitespace-only line in between, the lookahead keeps the
Definition open across it and a line with x1 = 700 is absorbed.) -/
theorem c5_definition_window :
    (∀ (t : String) (y1 y2 : Int), pyStrip t ≠ "" →
      procPage defaultConfig [⟨t, 550, y1, 3930, y2⟩] = [Blk.para "Definition" (pyStrip t)])
    ∧ (∀ (t : String) (y1 x2 y2 : Int),
        isDefLineB defaultConfig ⟨t, 700, y1, x2, y2⟩ = false ∧
        nextDefB defaultConfig ⟨t, 700, y1, x2, y2⟩ = false)
    ∧ (∀ (lines : List Line), (∀ l ∈ lines, pyStrip l.text ≠ "") →
        ∀ (j : Nat) (l : Line) (stj : PState), lines[j]? = some l → l.x1 = 700 →
          (procStates defaultConfig (avgLineHeight lines) none lines initState)[j]? = some stj →
          stj.inDef = false)
    ∧ (∀ (cfg : Config) (avg : ℚ) (prev : Option Line) (l : Line) (rest : List Line)
        (st : PState), isDefLineB cfg l = false → st.inDef = false → pyStrip l.text ≠ "" →
        (step cfg avg prev l rest st).2.defText = st.defText ∧
        (step cfg avg prev l rest st).2.inDef = false) := by
  refine ⟨?_, ?_, ?_, ?_⟩
  · intro t y1 y2 hne
    have hdl : isDefLineB defaultConfig ⟨t, 550, y1, 3930, y2⟩ = true := by
      simp [isDefLineB, defaultConfig]
    simp [procPage, procLines, step, hne, hdl, initState, flushPar, flushDef, joinSep]
  · intro t y1 x2 y2
    constructor <;> simp [isDefLineB, nextDefB, defaultConfig]
  · intro lines hne j l stj hl hx hst
    have hw : nextDefB defaultConfig l = false := by
      simp [nextDefB, defaultConfig, hx]
    exact procStates_notWidened defaultConfig (avgLineHeight lines) lines none initState hne
      (fun h => absurd h (by decide)) j l stj hl hw hst
  · intro cfg avg prev l rest st hdef hid hne
    constructor <;>
      simp [step, hne, hdef, hid, apply_ite (f := fun p : List Blk × PState => p.2),
        apply_ite (f := PState.defText), apply_ite (f := PState.inDef)]

theorem c5_witness :
    procPage defaultConfig [⟨"abc", 550, 0, 3930, 50⟩] = [Blk.para "Definition" "abc"] :=
  c5_definition_window.1 "abc" 0 50 (by decide)

theorem c5_counterexample :
    procPage defaultConfig
      [⟨"abc", 550, 0, 3930, 50⟩, ⟨" ", 550, 60, 3930, 110⟩, ⟨"xyz", 700, 120, 1500, 170⟩] =
      [Blk.para "Definition" "abc xyz"] := by
  decide

/-- C6: continuation joining with a single trailing hyphen strips exactly
that one hyphen and concatenates without inserting a space, both in
Paragraph continuation and inside an open Definition; a fragment ending in
a double dash is never treated as a continuation hyphen; non hyphen
continuation inserts exactly one space (Paragraph directly, Definition via
the space join at flush time); and the two line page with fragments exam-
and ple assembles to a paragraph reading example. -/
theorem c6_hyphen_join :
    (∀ (cfg : Config) (avg : ℚ) (prev : Option Line) (l : Line) (rest : List Line)
      (st : PState) (f : String),
      isDefLineB cfg l = false → st.inDef = false → l.x1 < cfg.parContinueMax →
      st.currentText = [f] → st.prevHyphen = true → endsSingleHyphen f = true →
      pyStrip l.text ≠ "" →
      (step cfg avg prev l rest st).2.currentText
        = [String.mk f.data.dropLast ++ pyLstrip (pyStrip l.text)])
    ∧ (∀ (cfg : Config) (avg : ℚ) (prev : Option Line) (l : Line) (rest : List Line)
        (st : PState) (f : String),
        isDefLineB cfg l = false → st.inDef = false → l.x1 < cfg.parContinueMax →
        st.currentText = [f] → st.prevHyphen = false → pyStrip l.text ≠ "" →
        (step cfg avg prev l rest st).2.currentText = [f ++ " " ++ pyStrip l.text])
    ∧ (∀ (cfg : Config) (avg : ℚ) (prev : Option Line) (l : Line) (nl : Line)
        (t : List Line) (st : PState) (g : String),
        st.inDef = true → nextDefB cfg nl = true → st.defText = [g] →
        st.prevHyphen = true → endsSingleHyphen g = true → pyStrip l.text ≠ "" →
        (step cfg avg prev l (nl :: t) st).2.defText
          = [String.mk g.data.dropLast ++ pyLstrip (pyStrip l.text)])
    ∧ (∀ g t2 : String, flushDef [g, t2] = [Blk.para "Definition" (g ++ " " ++ t2)])
    ∧ (∀ s : String, endsDoubleDash s = true → endsSingleHyphen s = false)
    ∧ procPage defaultConfig [⟨"  exam-", 400, 0, 1000, 50⟩, ⟨"ple", 50, 60, 300, 110⟩]
        = [Blk.para "Paragraph" "example"]
    ∧ procPage defaultConfig [⟨"ab--", 400, 0, 1000, 50⟩, ⟨"cd", 50, 60, 300, 110⟩]
        = [Blk.para "Paragraph" "ab-- cd"] := by
  refine ⟨?_, ?_, ?_, ?_, ?_, by decide, by decide⟩
  · intro cfg avg prev l rest st f hdef hid hx hbuf hph hf hne
    rw [step_cont cfg avg prev l rest st hdef hid (decide_eq_true hx) (by simp [hbuf]) hne]
    simp [hbuf, hph, modLast, rstrip_single hf]
  · intro cfg avg prev l rest st f hdef hid hx hbuf hph hne
    rw [step_cont cfg avg prev l rest st hdef hid (decide_eq_true hx) (by simp [hbuf]) hne]
    simp [hbuf, hph, modLast]
  · intro cfg avg prev l nl t st g hid hnext hbuf hph hg hne
    rw [step_def_cont cfg avg prev l nl t st hid hnext hne]
    simp [hbuf, hph, modLast, rstrip_single hg]
  · intro g t2
    rfl
  · intro s h
    exact endsDoubleDash_not_single h

theorem c6_witness :
    (step defaultConfig 1 none ⟨"ple", 50, 60, 300, 110⟩ []
      { prevHyphen := true, currentText := ["exam-"], currentStyle := "Paragraph",
        inDef := false, defText := [] }).2.currentText = ["example"] :=
  c6_hyphen_join.1 defaultConfig 1 none ⟨"ple", 50, 60, 300, 110⟩ []
    { prevHyphen := true, currentText := ["exam-"], currentStyle := "Paragraph",
      inDef := false, defText := [] } "exam-"
    (by decide) (by decide) (by decide) (by decide) (by decide) (by decide) (by decide)

theorem ws_not_alpha (ch : Char) (h : ch.isWhitespace = true) : ch.isAlpha = false := by
  simp [Char.isWhitespace] at h
  rcases h with ((h | h) | h) | h <;> subst h <;> decide

theorem pyStrip_empty_all_ws {t : String} (h : pyStrip t = "") :
    ∀ ch ∈ t.data, ch.isWhitespace = true := by
  have hL : ((t.data.dropWhile Char.isWhitespace).reverse.dropWhile Char.isWhitespace).reverse
      = [] := congrArg String.data h
  rw [List.reverse_eq_nil_iff, List.dropWhile_eq_nil_iff] at hL
  intro ch hch
  rw [← List.takeWhile_append_dropWhile (p := Char.isWhitespace) (l := t.data),
    List.mem_append] at hch
  rcases hch with hch | hch
  · exact List.mem_takeWhile_imp hch
  · exact hL ch (List.mem_reverse.2 hch)

theorem pyStrip_empty_no_alpha {t : String} (h : pyStrip t = "") :
    t.data.any Char.isAlpha = false := by
  rw [Bool.eq_false_iff]
  intro hany
  rw [List.any_eq_true] at hany
  obtain ⟨ch, hch, ha⟩ := hany
  rw [ws_not_alpha ch (pyStrip_empty_all_ws h ch hch)] at ha
  exact absurd ha (by decide)

/-- C7: the classifier labels a line TITLE exactly when it contains at least
one alphabetic character and either the ratio of uppercase to alphabetic
characters reaches the configured threshold (inclusive) or the line is
centered; a line with no alphabetic character is always PARAGRAPH, centered
or not, and the classifier only ever answers TITLE or PARAGRAPH. -/
theorem c7_classifier_title_iff (capsRatio : ℚ) (t : String) (c : Bool) :
    (classifyLine capsRatio t c = "TITLE" ↔
      (t.data.any Char.isAlpha = true ∧
        (capsRatio ≤ (((t.data.filter Char.isAlpha).filter Char.isUpper).length : ℚ) /
            ((t.data.filter Char.isAlpha).length : ℚ) ∨ c = true)))
    ∧ (classifyLine capsRatio t c = "TITLE" ∨ classifyLine capsRatio t c = "PARAGRAPH") := by
  by_cases hstrip : pyStrip t = ""
  · have hna := pyStrip_empty_no_alpha hstrip
    refine ⟨?_, Or.inr ?_⟩
    · rw [classifyLine, if_pos hstrip]
      simp [hna]
    · rw [classifyLine, if_pos hstrip]
  · by_cases hl : (t.data.filter Char.isAlpha).isEmpty = true
    · have hna : t.data.any Char.isAlpha = false := by
        rw [List.isEmpty_iff, List.filter_eq_nil_iff] at hl
        rw [Bool.eq_false_iff]
        intro hany
        rw [List.any_eq_true] at hany
        obtain ⟨ch, hch, ha⟩ := hany
        exact hl ch hch (by simpa using ha)
      have hred : classifyLine capsRatio t c = "PARAGRAPH" := by
        rw [classifyLine, if_neg hstrip]
        simp only [hl, if_pos]
      refine ⟨?_, Or.inr hred⟩
      rw [hred]
      simp [hna]
    · have hany : t.data.any Char.isAlpha = true := by
        rw [List.any_eq_true]
        rcases hx : t.data.filter Char.isAlpha with _ | ⟨ch, r⟩
        · exact absurd (by simp [hx]) hl
        · have hm : ch ∈ t.data.filter Char.isAlpha := by rw [hx]; exact List.mem_cons_self ch r
          rw [List.mem_filter] at hm
          exact ⟨ch, hm.1, hm.2⟩
      have hred : classifyLine capsRatio t c =
          if (decide (capsRatio ≤ (((t.data.filter Char.isAlpha).filter Char.isUpper).length : ℚ) /
              ((t.data.filter Char.isAlpha).length : ℚ)) || c) = true
          then "TITLE" else "PARAGRAPH" := by
        rw [classifyLine, if_neg hstrip]
        simp only [hl, Bool.false_eq_true, if_false]
      by_cases hc : (decide (capsRatio ≤
          (((t.data.filter Char.isAlpha).filter Char.isUpper).length : ℚ) /
          ((t.data.filter Char.isAlpha).length : ℚ)) || c) = true
      · have hor : capsRatio ≤ (((t.data.filter Char.isAlpha).filter Char.isUpper).length : ℚ) /
            ((t.data.filter Char.isAlpha).length : ℚ) ∨ c = true := by
          rcases Bool.or_eq_true_iff.mp hc with h | h
          · exact Or.inl (of_decide_eq_true h)
          · exact Or.inr h
        rw [hred, if_pos hc]
        exact ⟨⟨fun _ => ⟨hany, hor⟩, fun _ => rfl⟩, Or.inl rfl⟩
      · have hnor : ¬ (capsRatio ≤ (((t.data.filter Char.isAlpha).filter Char.isUpper).length : ℚ) /
            ((t.data.filter Char.isAlpha).length : ℚ) ∨ c = true) := by
          intro hor
          apply hc
          rcases hor with h | h
          · exact Bool.or_eq_true_iff.mpr (Or.inl (decide_eq_true h))
          · exact Bool.or_eq_true_iff.mpr (Or.inr h)
        rw [hred, if_neg hc]
        refine ⟨⟨fun hx => absurd hx (by decide), fun hx => absurd hx.2 hnor⟩, Or.inr rfl⟩

/-- C2: for a two page input whose first page is one all uppercase title
line (longer than ten characters, outside the definition window) followed
by one indented paragraph line, and whose second page is one footnote line
starting with a star (outside the definition and indentation windows), the
assembled document is exactly the block sequence Heading, Paragraph,
PageBreak, Divider, Footnote: one page break between the pages, none
before the first, and the footnote never merged into the paragraph. -/
theorem c2_two_page_scenario (l1 l2 l3 : Line)
    (h1a : pyStrip l1.text ≠ "")
    (h1b : pyIsUpper (pyStrip l1.text) = true)
    (h1c : (pyStrip l1.text).length > 10)
    (h1d : startsStar (pyStrip l1.text) = false)
    (h1e : isDefLineB defaultConfig l1 = false)
    (h2a : pyStrip l2.text ≠ "")
    (h2b : defaultConfig.parIndentMin ≤ l2.x1 ∧ l2.x1 ≤ defaultConfig.parIndentMax)
    (h2c : startsStar (pyStrip l2.text) = false)
    (h2d : (pyIsUpper (pyStrip l2.text) && decide ((pyStrip l2.text).length > 10)) = false)
    (h3a : startsStar (pyStrip l3.text) = true)
    (h3b : isDefLineB defaultConfig l3 = false)
    (h3c : ¬ (defaultConfig.parIndentMin ≤ l3.x1 ∧ l3.x1 ≤ defaultConfig.parIndentMax)) :
    (assembleDoc defaultConfig [[l1, l2], [l3]]).map blkKind =
      ["Heading", "Paragraph", "PageBreak", "Divider", "Footnote"] := by
  have hstyle1 : styleOf (pyStrip l1.text) = "Heading" := by
    simp [styleOf, h1d, h1b, h1c]
  have hstyle2 : styleOf (pyStrip l2.text) = "Paragraph" := by
    simp [styleOf, h2c, h2d]
  have h2bB : (decide (defaultConfig.parIndentMin ≤ l2.x1) &&
      decide (l2.x1 ≤ defaultConfig.parIndentMax)) = true := by
    simp [h2b.1, h2b.2]
  have h2x1lo : ¬ (defaultConfig.defLeftMin ≤ l2.x1) := by
    have h := h2b.2
    simp only [defaultConfig] at h ⊢
    omega
  have h2defB : isDefLineB defaultConfig l2 = false := by
    simp [isDefLineB, h2x1lo]
  have h2nocont : ¬ (l2.x1 < defaultConfig.parContinueMax) := by
    have h := h2b.1
    simp only [defaultConfig] at h ⊢
    omega
  obtain ⟨c1, hs1⟩ : ∃ c1, step defaultConfig (avgLineHeight [l1, l2]) none l1 [l2] initState =
      ([], { prevHyphen := endsSingleHyphen (pyStrip l1.text), currentText := [c1],
             currentStyle := "Heading", inDef := false, defText := [] }) := by
    by_cases hig : (decide (defaultConfig.parIndentMin ≤ l1.x1) &&
        decide (l1.x1 ≤ defaultConfig.parIndentMax)) = true
    · refine ⟨String.mk (List.replicate defaultConfig.parIndentSpaces ' ') ++ pyStrip l1.text, ?_⟩
      rw [step_indent defaultConfig (avgLineHeight [l1, l2]) none l1 [l2] initState h1e rfl
        (by simp [initState]) hig h1a]
      simp [flushPar, initState, hstyle1]
    · have higF : (decide (defaultConfig.parIndentMin ≤ l1.x1) &&
          decide (l1.x1 ≤ defaultConfig.parIndentMax)) = false := by
        revert hig
        cases (decide (defaultConfig.parIndentMin ≤ l1.x1) &&
          decide (l1.x1 ≤ defaultConfig.parIndentMax)) <;> simp
      refine ⟨pyStrip l1.text, ?_⟩
      rw [step_fallback_nofoot defaultConfig (avgLineHeight [l1, l2]) none l1 [l2] initState h1e
        rfl (by simp [initState]) higF h1d h1a]
      simp [flushPar, initState, hstyle1]
  have hs2 : step defaultConfig (avgLineHeight [l1, l2]) (some l1) l2 []
      { prevHyphen := endsSingleHyphen (pyStrip l1.text), currentText := [c1],
        currentStyle := "Heading", inDef := false, defText := [] } =
      ([Blk.para "Heading" c1],
       { prevHyphen := endsSingleHyphen (pyStrip l2.text),
         currentText := [String.mk (List.replicate defaultConfig.parIndentSpaces ' ')
           ++ pyStrip l2.text],
         currentStyle := "Paragraph", inDef := false, defText := [] }) := by
    rw [step_indent defaultConfig (avgLineHeight [l1, l2]) (some l1) l2 []
      { prevHyphen := endsSingleHyphen (pyStrip l1.text), currentText := [c1],
        currentStyle := "Heading", inDef := false, defText := [] } h2defB rfl
      (by simp [h2nocont]) h2bB h2a]
    simp [flushPar, joinSep, hstyle2]
  have hpage1 : (procPage defaultConfig [l1, l2]).map blkKind = ["Heading", "Paragraph"] := by
    simp only [procPage, procLines, hs1, hs2]
    simp [flushPar, flushDef, blkKind]
  have hind3 : (decide (defaultConfig.parIndentMin ≤ l3.x1) &&
      decide (l3.x1 ≤ defaultConfig.parIndentMax)) = false := by
    rcases Decidable.em (defaultConfig.parIndentMin ≤ l3.x1) with h1 | h1
    · have h2 : ¬ l3.x1 ≤ defaultConfig.parIndentMax := fun h2 => h3c ⟨h1, h2⟩
      simp [h2]
    · simp [h1]
  have hs3 : step defaultConfig (avgLineHeight [l3]) none l3 [] initState =
      ([Blk.divider, Blk.para "Footnote" (pyStrip l3.text)],
       { prevHyphen := false, currentText := [], currentStyle := "Paragraph",
         inDef := false, defText := [] }) := by
    rw [step_fallback_foot defaultConfig (avgLineHeight [l3]) none l3 [] initState h3b rfl
      (by simp [initState]) hind3 h3a]
    simp [flushPar, initState]
  have hpage2 : (procPage defaultConfig [l3]).map blkKind = ["Divider", "Footnote"] := by
    simp only [procPage, procLines, hs3]
    simp [flushPar, flushDef, blkKind]
  simp only [assembleDoc, List.foldr_cons, List.foldr_nil, List.append_nil]
  rw [List.map_append, hpage1]
  simp only [List.map_cons, blkKind]
  rw [hpage2]
  rfl

theorem c2_witness :
    (assembleDoc defaultConfig
      [[⟨"CHAPTER ONE TITLE", 1000, 0, 3000, 80⟩, ⟨"Indented paragraph line.", 300, 100, 3800, 180⟩],
       [⟨"* footnote text", 150, 0, 2000, 80⟩]]).map blkKind =
      ["Heading", "Paragraph", "PageBreak", "Divider", "Footnote"] :=
  c2_two_page_scenario ⟨"CHAPTER ONE TITLE", 1000, 0, 3000, 80⟩
    ⟨"Indented paragraph line.", 300, 100, 3800, 180⟩ ⟨"* footnote text", 150, 0, 2000, 80⟩
    (by decide) (by decide) (by decide) (by decide) (by decide) (by decide)
    (by decide) (by decide) (by decide) (by decide) (by decide) (by decide)

theorem parsePage_none_of_bad : ∀ (rows : List Row) (r : Row), r ∈ rows →
    rowToLine r = none → parsePage rows = none := by
  intro rows
  induction rows with
  | nil => intro r hr hb; simp at hr
  | cons a rest ih =>
    intro r hr hb
    rcases List.mem_cons.1 hr with hr | hr
    · subst hr; simp [parsePage, hb]
    · simp only [parsePage]
      rw [ih r hr hb]
      cases rowToLine a <;> rfl

theorem assembleSorted_ok_parses (cfg : Config) :
    ∀ (L : List (String × List Row)) (flag : Bool) (bs : List Blk),
      assembleSorted cfg L flag = .ok bs → ∀ p ∈ L, parsePage p.2 ≠ none := by
  intro L
  induction L with
  | nil => intro flag bs h p hp; simp at hp
  | cons a rest ih =>
    intro flag bs h p hp
    obtain ⟨nm, rws⟩ := a
    simp only [assembleSorted] at h
    cases hpp : parsePage rws with
    | none => rw [hpp] at h; exact absurd h (by simp)
    | some ls =>
      rw [hpp] at h
      cases hrec : assembleSorted cfg rest false with
      | error e => rw [hrec] at h; exact absurd h (by simp)
      | ok bs2 =>
        rcases List.mem_cons.1 hp with hp | hp
        · subst hp; simp [hpp]
        · exact ih false bs2 hrec p hp

theorem mem_insertSorted (a x : String × List Row) :
    ∀ (L : List (String × List Row)), x ∈ insertSorted a L ↔ x = a ∨ x ∈ L := by
  intro L; induction L with
  | nil => simp [insertSorted]
  | cons b rest ih =>
    simp only [insertSorted]
    by_cases h : strLtB a.1 b.1 = true
    · simp only [h, if_true, List.mem_cons]
    · simp only [Bool.eq_false_iff.2 (fun hx => h hx), Bool.false_eq_true, if_false,
        List.mem_cons, ih]
      tauto

theorem mem_sortByName (x : String × List Row) :
    ∀ (L acc : List (String × List Row)),
      x ∈ L.foldl (fun acc f => insertSorted f acc) acc ↔ x ∈ acc ∨ x ∈ L := by
  intro L
  induction L with
  | nil => intro acc; simp
  | cons b rest ih =>
    intro acc
    simp only [List.foldl_cons]
    rw [ih (insertSorted b acc), mem_insertSorted]
    simp only [List.mem_cons]
    tauto

/-- C3 (amended): a record whose bbox does not parse as four numbers is
dropped only by the line classifier, which keeps processing the remaining
records; in the ODT assembler the same malformed record aborts the whole
run (the unprotected eval raises), so no output at all is produced. -/
theorem c3_malformed_record :
    (∀ (thr : ℚ) (pre post : List CRow) (bad : CRow), parseBBox bad.bboxStr = none →
      classifyLines thr (pre ++ bad :: post) = classifyLines thr (pre ++ post))
    ∧ (∀ (cfg : Config) (files : List (String × Option (List Row))) (name : String)
        (rows : List Row) (r : Row), (name, some rows) ∈ files → r ∈ rows →
        parseBBox r.bbox = none → ∃ e, assembleODT cfg files = Except.error e) := by
  constructor
  · intro thr pre post bad h
    simp [classifyLines, List.filterMap_append, List.filterMap_cons, h]
  · intro cfg files name rows r hf hr hb
    unfold assembleODT
    cases hfind : files.find? (fun f => f.2.isNone) with
    | some g => exact ⟨_, rfl⟩
    | none =>
      have hmem : (name, rows) ∈ sortByName (files.map (fun f => (f.1, f.2.getD []))) := by
        apply (mem_sortByName _ _ _).2
        exact Or.inr (List.mem_map.2 ⟨(name, some rows), hf, rfl⟩)
      have hpp : parsePage rows = none :=
        parsePage_none_of_bad rows r hr (by simp [rowToLine, hb])
      cases hres : assembleSorted cfg (sortByName (files.map (fun f => (f.1, f.2.getD [])))) true
        with
      | error e => exact ⟨e, rfl⟩
      | ok bs =>
        exact absurd hpp
          (assembleSorted_ok_parses cfg _ true bs hres (name, rows) hmem)

theorem c3_witness :
    classifyLines (7 / 10)
      ([⟨1, 0, "Hello", "[1, 2, 3, 4]", false, false⟩] ++
        ⟨1, 1, "Bad", "oops", true, false⟩ :: [⟨1, 2, "WORLD", "[5, 6, 7, 8]", false, false⟩]) =
    classifyLines (7 / 10)
      ([⟨1, 0, "Hello", "[1, 2, 3, 4]", false, false⟩] ++
        [⟨1, 2, "WORLD", "[5, 6, 7, 8]", false, false⟩]) :=
  c3_malformed_record.1 (7 / 10) [⟨1, 0, "Hello", "[1, 2, 3, 4]", false, false⟩]
    [⟨1, 2, "WORLD", "[5, 6, 7, 8]", false, false⟩] ⟨1, 1, "Bad", "oops", true, false⟩ (by decide)

theorem c3_counterexample :
    assembleODT defaultConfig
      [("a.tsv", some [⟨"alpha", "[400, 0, 1000, 50]"⟩]),
       ("b.tsv", some [⟨"beta", "oops"⟩])] =
      Except.error "malformed bbox in b.tsv" := by
  rfl

/-- C4 (amended): a missing TSV file is fatal for the whole run, not only
for its page: assemble_odt raises FileNotFoundError during its initial
existence check, before any page is processed, so no page is skipped and
nothing is assembled. -/
theorem c4_missing_file_fatal (cfg : Config) (files : List (String × Option (List Row)))
    (h : ∃ f ∈ files, f.2 = none) :
    ∃ e, assembleODT cfg files = Except.error e := by
  obtain ⟨f, hf, hn⟩ := h
  have hsome : (files.find? (fun f => f.2.isNone)).isSome := by
    rw [List.find?_isSome]
    exact ⟨f, hf, by simp [hn]⟩
  obtain ⟨g, hg⟩ := Option.isSome_iff_exists.1 hsome
  refine ⟨"TSV file " ++ g.1 ++ " not found", ?_⟩
  unfold assembleODT
  rw [hg]

theorem c4_witness :
    ∃ e, assembleODT defaultConfig
      [("a.tsv", some [⟨"alpha", "[400, 0, 1000, 50]"⟩]), ("b.tsv", none)] =
      Except.error e :=
  c4_missing_file_fatal defaultConfig
    [("a.tsv", some [⟨"alpha", "[400, 0, 1000, 50]"⟩]), ("b.tsv", none)]
    ⟨("b.tsv", none), by decide, rfl⟩

theorem c4_counterexample :
    assembleODT defaultConfig
      [("a.tsv", some [⟨"alpha", "[400, 0, 1000, 50]"⟩]), ("b.tsv", none)] =
      Except.error "TSV file b.tsv not found" := by
  rfl

theorem lexLt_cons_same (c : Char) (x y : List Char) :
    lexLt (c :: x) (c :: y) = lexLt x y := by
  simp only [lexLt]
  rw [if_neg (lt_irrefl c), if_neg (lt_irrefl c)]

theorem lexLt_append_left (pre : List Char) :
    ∀ x y, lexLt (pre ++ x) (pre ++ y) = lexLt x y := by
  induction pre with
  | nil => intro x y; simp
  | cons c cs ih =>
    intro x y
    rw [List.cons_append, List.cons_append, lexLt_cons_same, ih]

theorem digitChar_lt_iff : ∀ x < 10, ∀ y < 10, (Nat.digitChar x < Nat.digitChar y ↔ x < y) := by
  decide

theorem lexLt_pad4 (p q : Nat) (hpq : p < q) (hq : q ≤ 9999) (s : List Char) :
    lexLt ((pad4 p).data ++ s) ((pad4 q).data ++ s) = true := by
  have hp10 : p < 10000 := by omega
  have hq10 : q < 10000 := by omega
  rw [pad4, if_pos hp10, pad4, if_pos hq10]
  have h3p : p / 1000 % 10 < 10 := Nat.mod_lt _ (by norm_num)
  have h3q : q / 1000 % 10 < 10 := Nat.mod_lt _ (by norm_num)
  have h2p : p / 100 % 10 < 10 := Nat.mod_lt _ (by norm_num)
  have h2q : q / 100 % 10 < 10 := Nat.mod_lt _ (by norm_num)
  have h1p : p / 10 % 10 < 10 := Nat.mod_lt _ (by norm_num)
  have h1q : q / 10 % 10 < 10 := Nat.mod_lt _ (by norm_num)
  have h0p : p % 10 < 10 := Nat.mod_lt _ (by norm_num)
  have h0q : q % 10 < 10 := Nat.mod_lt _ (by norm_num)
  have hA : p / 10 / 10 = p / 100 := by rw [Nat.div_div_eq_div_mul]
  have hB : p / 100 / 10 = p / 1000 := by rw [Nat.div_div_eq_div_mul]
  have hC : q / 10 / 10 = q / 100 := by rw [Nat.div_div_eq_div_mul]
  have hD : q / 100 / 10 = q / 1000 := by rw [Nat.div_div_eq_div_mul]
  have m1p : p / 10 % 10 = p / 10 - 10 * (p / 100) := by rw [← hA]; omega
  have m2p : p / 100 % 10 = p / 100 - 10 * (p / 1000) := by rw [← hB]; omega
  have m3p : p / 1000 % 10 = p / 1000 := Nat.mod_eq_of_lt (by omega)
  have m1q : q / 10 % 10 = q / 10 - 10 * (q / 100) := by rw [← hC]; omega
  have m2q : q / 100 % 10 = q / 100 - 10 * (q / 1000) := by rw [← hD]; omega
  have m3q : q / 1000 % 10 = q / 1000 := Nat.mod_eq_of_lt (by omega)
  have H : p / 1000 % 10 < q / 1000 % 10 ∨ (p / 1000 % 10 = q / 1000 % 10 ∧
      (p / 100 % 10 < q / 100 % 10 ∨ (p / 100 % 10 = q / 100 % 10 ∧
      (p / 10 % 10 < q / 10 % 10 ∨ (p / 10 % 10 = q / 10 % 10 ∧ p % 10 < q % 10))))) := by
    omega
  show lexLt
      (Nat.digitChar (p / 1000 % 10) :: Nat.digitChar (p / 100 % 10) ::
        Nat.digitChar (p / 10 % 10) :: Nat.digitChar (p % 10) :: s)
      (Nat.digitChar (q / 1000 % 10) :: Nat.digitChar (q / 100 % 10) ::
        Nat.digitChar (q / 10 % 10) :: Nat.digitChar (q % 10) :: s) = true
  rcases H with h | ⟨e3, H⟩
  · simp only [lexLt]
    rw [if_pos ((digitChar_lt_iff _ h3p _ h3q).2 h)]
  · have ec3 : Nat.digitChar (p / 1000 % 10) = Nat.digitChar (q / 1000 % 10) := by rw [e3]
    rw [ec3, lexLt_cons_same]
    rcases H with h | ⟨e2, H⟩
    · simp only [lexLt]
      rw [if_pos ((digitChar_lt_iff _ h2p _ h2q).2 h)]
    · have ec2 : Nat.digitChar (p / 100 % 10) = Nat.digitChar (q / 100 % 10) := by rw [e2]
      rw [ec2, lexLt_cons_same]
      rcases H with h | ⟨e1, h0⟩
      · simp only [lexLt]
        rw [if_pos ((digitChar_lt_iff _ h1p _ h1q).2 h)]
      · have ec1 : Nat.digitChar (p / 10 % 10) = Nat.digitChar (q / 10 % 10) := by rw [e1]
        rw [ec1, lexLt_cons_same]
        simp only [lexLt]
        rw [if_pos ((digitChar_lt_iff _ h0p _ h0q).2 h0)]

theorem strLtB_pageFileName (p q : Nat) (hpq : p < q) (hq : q ≤ 9999) :
    strLtB (pageFileName p) (pageFileName q) = true := by
  unfold strLtB pageFileName
  have hdata : ∀ s t : String, (s ++ t).data = s.data ++ t.data := fun s t => rfl
  rw [hdata, hdata, hdata, hdata, List.append_assoc, List.append_assoc, lexLt_append_left]
  exact lexLt_pad4 p q hpq hq _

/-- C8 (amended): assemble_odt processes the collected TSV files in
ascending lexicographic order of their paths (a second sort applied after
the numeric sort in the orchestrator); for page numbers up to 9999 the
zero padded four digit file names make this coincide with ascending page
number order, so every block of a lower page precedes every block of a
higher page; with five digit page numbers the two orders diverge. -/
theorem c8_page_order (p q : Nat) (hpq : p < q) (hq : q ≤ 9999) :
    strLtB (pageFileName p) (pageFileName q) = true ∧
    ∀ (rowsA rowsB : List Row),
      sortByName [(pageFileName q, rowsB), (pageFileName p, rowsA)] =
        [(pageFileName p, rowsA), (pageFileName q, rowsB)] := by
  have hlt := strLtB_pageFileName p q hpq hq
  refine ⟨hlt, ?_⟩
  intro rowsA rowsB
  simp only [sortByName, List.foldl_cons, List.foldl_nil, insertSorted, hlt, if_true]

theorem c8_witness : strLtB (pageFileName 1) (pageFileName 2) = true :=
  (c8_page_order 1 2 (by decide) (by decide)).1

theorem c8_counterexample :
    assembleODT defaultConfig
      [(pageFileName 9999, some [⟨"alpha", "[400, 0, 1000, 50]"⟩]),
       (pageFileName 10000, some [⟨"beta", "[400, 0, 1000, 50]"⟩])] =
      Except.ok [Blk.para "Paragraph" "beta", Blk.pageBreak, Blk.para "Paragraph" "alpha"] := by
  rfl
